import Mathlib

/-!
Shallow embedding of `pkg/services/ngalert/writer/prom.go` (Grafana recording
rule remote writer) and proofs about its specification claims.

Modelling conventions:
* Go `map[string]string` values are association lists with unique keys; the
  operations `mapGet` / `mapErase` / `mapInsert` model Go map read, `delete`
  and assignment.
* Go `float64` is modelled opaquely by `GoFloat`: the code never computes with
  float values, it only passes them through or substitutes `math.NaN()`, so a
  distinguished `nan` constructor plus an opaque numeric payload captures the
  data flow exactly.
* `time.Time` and `time.Duration` are modelled as `Int` (nanosecond ticks).
* The dataplane collection reader (`numeric.CollectionReaderFromFrames`,
  `CollectionReader.GetCollection`) is external to the repository; the spec
  treats the collection as "an externally supplied columnar structure", so a
  `Frames` value is abstracted by the outcomes of those two fallible steps and
  by the per-series data (`Ref`) the extractor reads from it.
* The remote-write client, the transport factory and `net/url.Parse` are
  external collaborators and are passed in as function parameters.
* Go errors are modelled as `String` messages (`Option String` for a possibly
  nil `error` result); `fmt.Errorf("ctx: %w", err)` becomes string prefixing.
-/

/-- Model of `strings.Contains` on lists of characters: `sub` occurs inside `hay`. -/
def listContainsSub (hay sub : List Char) : Bool :=
  match hay with
  | [] => sub.isEmpty
  | _ :: t => sub.isPrefixOf hay || listContainsSub t sub

/-- Go `strings.Contains s substr`. -/
def goStringContains (s substr : String) : Bool :=
  listContainsSub s.toList substr.toList

/-- Go `map[string]string` (also `data.Labels`), as an association list whose
keys are unique. -/
abbrev Labels := List (String × String)

/-- Go map read: the value stored at key `k`, if any. -/
def mapGet (m : Labels) (k : String) : Option String :=
  (m.find? (fun p => p.1 == k)).map (fun p => p.2)

/-- Go `delete(m, k)`. -/
def mapErase (m : Labels) (k : String) : Labels :=
  m.filter (fun p => p.1 != k)

/-- Go map assignment `m[k] = v` (overwrites an existing binding for `k`). -/
def mapInsert (m : Labels) (k v : String) : Labels :=
  mapErase m k ++ [(k, v)]

/-- The keys of a label map. -/
def mapKeys (m : Labels) : List String := m.map (fun p => p.1)

/-- Go `float64`, modelled opaquely: the writer never computes with float
values, so only the distinction "the NaN produced by `math.NaN()`" versus an
arbitrary pass-through payload matters. -/
inductive GoFloat where
  | nan : GoFloat
  | num : Int → GoFloat
deriving DecidableEq, Repr

/-- Model of `Metric` from prom.go: one Prometheus sample, timestamp `T` and value `V`. -/
structure Metric where
  T : Int
  V : GoFloat
deriving DecidableEq, Repr

/-- Model of `Point` from prom.go: logical representation of a single point in time for
a Prometheus time series. -/
structure Point where
  Name : String
  Labels : Labels
  Metric : Metric
deriving DecidableEq, Repr

/-- One series ("ref") of a numeric collection, abstracted by the two reads
the extractor performs on it: `GetLabels()` (a possibly-nil label map) and
`NullableFloat64Value()` (a possibly-nil float pointer plus an `empty` flag;
the error return is discarded by the source with `_`). -/
structure Ref where
  labels : Option Labels
  nullableFloat64Value : Option GoFloat × Bool
deriving DecidableEq, Repr

/-- Model of `numeric.Collection`: the field `Refs` holds the series in iteration
order. -/
structure NumericCollection where
  Refs : List Ref
deriving DecidableEq, Repr

/-- The collection reader obtained from frames, abstracted by the outcome of
its `GetCollection(false)` call. -/
structure CollectionReader where
  GetCollection : Except String NumericCollection
deriving Repr

/-- Model of `data.Frames`, abstracted by the outcome of
`numeric.CollectionReaderFromFrames`. -/
structure Frames where
  CollectionReaderFromFrames : Except String CollectionReader
deriving Repr

/-- Model of `data.Labels.Copy`: a (defensive) copy of a label map; in the pure
embedding the copy is the map itself. -/
def mapCopy (m : Labels) : Labels := m

/-- Model of `PointsFromFrames` from prom.go. For each ref of the collection, in
order: default the value to NaN when empty or nil, copy the labels (a nil map
becomes an empty one), delete `__name__`, overlay `extraLabels`, and emit a
`Point` with the given name and timestamp. -/
def PointsFromFrames (name : String) (t : Int) (frames : Frames)
    (extraLabels : Labels) : Except String (List Point) :=
  match frames.CollectionReaderFromFrames with
  | .error err => .error err
  | .ok cr =>
    match cr.GetCollection with
    | .error err => .error err
    | .ok col =>
      .ok (col.Refs.map (fun ref =>
        let f : GoFloat :=
          match ref.nullableFloat64Value with
          | (some fp, false) => fp
          | _ => GoFloat.nan
        let metric : Metric := { T := t, V := f }
        let labels :=
          match ref.labels with
          | none => ([] : Labels)
          | some l => mapCopy l
        let labels := mapErase labels "__name__"
        let labels := extraLabels.foldl (fun m kv => mapInsert m kv.1 kv.2) labels
        { Name := name, Labels := labels, Metric := metric }))

/-- The value the extractor resolves for one ref (NaN when empty or nil):
spec §4.1 "Resolve the series's value". Used to state per-series claims. -/
def refResolvedValue (ref : Ref) : GoFloat :=
  match ref.nullableFloat64Value with
  | (some fp, false) => fp
  | _ => GoFloat.nan

/-- The merged label map the extractor builds for one ref: copy (nil becomes
empty), delete `__name__`, overlay `extraLabels`. Used to state per-series
claims. -/
def refMergedLabels (ref : Ref) (extraLabels : Labels) : Labels :=
  extraLabels.foldl (fun m kv => mapInsert m kv.1 kv.2)
    (mapErase (match ref.labels with | none => [] | some l => mapCopy l) "__name__")

/-- Model of `MimirDuplicateTimestampError` from prom.go (fixed error message). -/
def MimirDuplicateTimestampError : String := "err-mimir-sample-duplicate-timestamp"

/-- Model of `PrometheusDuplicateTimestampError` from prom.go (best effort error
message). -/
def PrometheusDuplicateTimestampError : String := "duplicate sample for timestamp"

/-- Model of `DuplicateTimestampErrors` from prom.go. -/
def DuplicateTimestampErrors : List String :=
  [MimirDuplicateTimestampError, PrometheusDuplicateTimestampError]

/-- A non-nil `promremote.WriteError`, as the structured variant the spec
describes: a status code (`StatusCode()`) and a message (`Error()`). -/
structure WriteError where
  StatusCode : Int
  Error : String
deriving DecidableEq, Repr

/-- Model of `checkWriteError` from prom.go: a nil error passes through; a 400-status
error whose message contains one of the duplicate-timestamp signatures is
converted to nil; every other error is returned unchanged. -/
def checkWriteError (writeErr : Option WriteError) : Option WriteError :=
  match writeErr with
  | none => none
  | some e =>
    if e.StatusCode = 400 ∧
        DuplicateTimestampErrors.any (fun s => goStringContains e.Error s) then
      none
    else some e

/-- Model of `promremote.Label`: one (name, value) pair of a wire time series. -/
structure PromLabel where
  Name : String
  Value : String
deriving DecidableEq, Repr

/-- Model of `promremote.Datapoint`. -/
structure PromDatapoint where
  Timestamp : Int
  Value : GoFloat
deriving DecidableEq, Repr

/-- Model of `promremote.TimeSeries`: the transmission unit of the remote-write
protocol. -/
structure PromTimeSeries where
  Labels : List PromLabel
  Datapoint : PromDatapoint
deriving DecidableEq, Repr

/-- Model of `promremoteLabelsFromPoint` from prom.go: `__name__ = point.Name` first,
then the point's labels in the map's iteration order. -/
def promremoteLabelsFromPoint (point : Point) : List PromLabel :=
  { Name := "__name__", Value := point.Name } ::
    point.Labels.map (fun kv => { Name := kv.1, Value := kv.2 })

/-- Model of `PrometheusWriter`, abstracted by the behaviour of its bound remote-write
client: `client` gives the (possibly nil) `WriteError` that
`client.WriteTimeSeries` reports for a batch of series. -/
structure PrometheusWriter where
  client : List PromTimeSeries → Option WriteError

/-- The series-construction loop of `Write` (prom.go lines 176–185): each
point becomes one wire time series with `promremoteLabelsFromPoint` labels and
the point's metric as the datapoint. -/
def timeSeriesFromPoints (points : List Point) : List PromTimeSeries :=
  points.map (fun p =>
    ({ Labels := promremoteLabelsFromPoint p,
       Datapoint := { Timestamp := p.Metric.T, Value := p.Metric.V } } :
      PromTimeSeries))

/-- Model of `PrometheusWriter.Write` from prom.go: extract points (propagating
failure), map each point to a wire time series, issue one remote-write call,
and classify the outcome; a surviving error is wrapped with
`"failed to write time series: "`. -/
def PrometheusWriter.Write (w : PrometheusWriter) (name : String) (t : Int)
    (frames : Frames) (extraLabels : Labels) : Option String :=
  match PointsFromFrames name t frames extraLabels with
  | .error err => some err
  | .ok points =>
    let series := timeSeriesFromPoints points
    let writeErr := w.client series
    match checkWriteError writeErr with
    | some err => some ("failed to write time series: " ++ err.Error)
    | none => none

/-- Model of `setting.RecordingRuleSettings`, restricted to the fields prom.go reads. -/
structure RecordingRuleSettings where
  URL : String
  Timeout : Int
  BasicAuthUsername : String
  BasicAuthPassword : String
  CustomHeaders : Labels
deriving DecidableEq, Repr

/-- Model of `httpclient.BasicAuthOptions`. -/
structure BasicAuthOptions where
  User : String
  Password : String
deriving DecidableEq, Repr

/-- The `httpclient.Options` fields prom.go populates for the transport
factory. -/
structure HttpClientOptions where
  BasicAuth : Option BasicAuthOptions
  Header : Labels
deriving DecidableEq, Repr

/-- Model of `createAuthOpts` from prom.go: no basic auth when the username is empty
(the password is ignored). -/
def createAuthOpts (username password : String) : Option BasicAuthOptions :=
  if username = "" then none
  else some { User := username, Password := password }

/-- Model of `validateSettings` from prom.go, parameterised by a model `url_Parse` of
the external `net/url.Parse` (`.error` when the URL does not parse). The
checks run in source order: basic-auth constraint, URL syntax, timeout. -/
def validateSettings (url_Parse : String → Except String Unit)
    (settings : RecordingRuleSettings) : Option String :=
  if settings.BasicAuthUsername ≠ "" ∧ settings.BasicAuthPassword = "" then
    some "basic auth password is required if username is set"
  else
    match url_Parse settings.URL with
    | .error err => some ("invalid URL: " ++ err)
    | .ok _ =>
      if settings.Timeout ≤ 0 then some "timeout must be greater than 0"
      else none

/-- The `promremote.NewConfig` options prom.go sets (the transport is an
opaque handle produced by the transport factory). -/
structure PromClientConfig where
  UserAgent : String
  WriteURL : String
  HTTPClientTimeout : Int
  HTTPClientTransport : Nat
deriving DecidableEq, Repr

/-- A constructed `promremote.Client`, abstracted by the config it was built
from. -/
structure PromClient where
  cfg : PromClientConfig
deriving DecidableEq, Repr

/-- The constructed writer of `NewPrometheusWriter` (the logger is
observability-only and omitted). -/
structure ConstructedWriter where
  client : PromClient
deriving DecidableEq, Repr

/-- Model of `NewPrometheusWriter` from prom.go, parameterised by the external
collaborators: `url_Parse` models `net/url.Parse`,
`getTransport` the injected `httpClientProvider.GetTransport`, and
`newClient` the `promremote.NewClient` constructor. Control flow follows the
source: validate settings, build headers, request a transport with the
basic-auth options, build the client config, construct the client. -/
def NewPrometheusWriter (url_Parse : String → Except String Unit)
    (settings : RecordingRuleSettings)
    (getTransport : HttpClientOptions → Except String Nat)
    (newClient : PromClientConfig → Except String PromClient) :
    Except String ConstructedWriter :=
  match validateSettings url_Parse settings with
  | some err => .error err
  | none =>
    match getTransport { BasicAuth := createAuthOpts settings.BasicAuthUsername
                            settings.BasicAuthPassword,
                         Header := settings.CustomHeaders } with
    | .error err => .error err
    | .ok rt =>
      match newClient { UserAgent := "grafana-recording-rule",
                        WriteURL := settings.URL,
                        HTTPClientTimeout := settings.Timeout,
                        HTTPClientTransport := rt } with
      | .error err => .error err
      | .ok client => .ok { client := client }

theorem find?_mapErase_self (m : Labels) (k : String) :
    (mapErase m k).find? (fun p => p.1 == k) = none := by
  rw [List.find?_eq_none]
  intro p hp
  rw [mapErase, List.mem_filter] at hp
  simpa using hp.2

theorem mapGet_mapErase_self (m : Labels) (k : String) :
    mapGet (mapErase m k) k = none := by
  unfold mapGet
  rw [find?_mapErase_self]
  rfl

theorem mapGet_mapInsert_self (m : Labels) (k v : String) :
    mapGet (mapInsert m k v) k = some v := by
  unfold mapGet mapInsert
  rw [List.find?_append, find?_mapErase_self]
  simp

theorem mapGet_mapInsert_other (m : Labels) (k v k' : String) (h : k' ≠ k) :
    mapGet (mapInsert m k v) k' = mapGet m k' := by
  unfold mapGet mapInsert mapErase
  rw [List.find?_append, List.find?_filter]
  have h1 : (fun (a : String × String) => decide ((a.1 != k) = true ∧ (a.1 == k') = true))
      = fun (a : String × String) => a.1 == k' := by
    funext a
    by_cases ha : a.1 = k'
    · subst ha
      simp [bne_iff_ne]
      exact h
    · simp [ha]
  have h2 : List.find? (fun (p : String × String) => p.1 == k') [(k, v)] = none := by
    simp [List.find?_cons, Ne.symm h]
  rw [h1, h2]
  simp

theorem mapGet_foldl_insert_not_mem (extra : Labels) (k : String)
    (hk : k ∉ mapKeys extra) (m : Labels) :
    mapGet (extra.foldl (fun m kv => mapInsert m kv.1 kv.2) m) k = mapGet m k := by
  induction extra generalizing m with
  | nil => rfl
  | cons kv rest ih =>
    have hk1 : k ≠ kv.1 := by
      intro hEq
      exact hk (by simp [mapKeys, hEq])
    have hk2 : k ∉ mapKeys rest := by
      intro hMem
      exact hk (by simp [mapKeys] at hMem ⊢; right; exact hMem)
    rw [List.foldl_cons, ih hk2, mapGet_mapInsert_other _ _ _ _ hk1]

theorem mapGet_foldl_insert_mem (extra : Labels) (kv : String × String)
    (hmem : kv ∈ extra) (hnodup : (mapKeys extra).Nodup) (m : Labels) :
    mapGet (extra.foldl (fun m kv => mapInsert m kv.1 kv.2) m) kv.1 = some kv.2 := by
  induction extra generalizing m with
  | nil => cases hmem
  | cons kv0 rest ih =>
    have hkeys : mapKeys (kv0 :: rest) = kv0.1 :: mapKeys rest := rfl
    rw [hkeys, List.nodup_cons] at hnodup
    rw [List.mem_cons] at hmem
    rcases hmem with hEq | hMem
    · subst hEq
      rw [List.foldl_cons, mapGet_foldl_insert_not_mem rest kv.1 hnodup.1,
        mapGet_mapInsert_self]
    · exact ih hMem hnodup.2 _

/-- Concrete frames whose collection has no series. -/
def emptyFrames : Frames :=
  { CollectionReaderFromFrames := .ok { GetCollection := .ok { Refs := [] } } }

/-- A concrete series with labels `{host: a}` and value 1. -/
def refHostA : Ref :=
  { labels := some [("host", "a")],
    nullableFloat64Value := (some (GoFloat.num 1), false) }

/-- Concrete frames whose collection has the single series `refHostA`. -/
def oneRefFrames : Frames :=
  { CollectionReaderFromFrames := .ok { GetCollection := .ok { Refs := [refHostA] } } }

/-- Concrete frames on which the collection reader fails. -/
def badFrames : Frames :=
  { CollectionReaderFromFrames := .error "input data must be a numeric collection" }

/-- Claim C1: For every outcome of the remote-write call inside `Write` (the
call happens exactly when point extraction succeeds): if the call fails with
a status-400 response (the code's reading of "HTTP 400-class") whose message
contains one of the fixed duplicate-timestamp signatures, `Write` returns
success (`none`); any other failure — a 400 response with an unrecognized
message, or any other status such as 500, regardless of body content — is
returned wrapped with the context `"failed to write time series: "`. -/
theorem write_duplicate_timestamp_classification
    (w : PrometheusWriter) (name : String) (t : Int) (frames : Frames)
    (extraLabels : Labels) (points : List Point) (e : WriteError)
    (hp : PointsFromFrames name t frames extraLabels = .ok points)
    (he : w.client (timeSeriesFromPoints points) = some e) :
    (e.StatusCode = 400 ∧
        DuplicateTimestampErrors.any (fun s => goStringContains e.Error s) →
      w.Write name t frames extraLabels = none) ∧
    (¬ (e.StatusCode = 400 ∧
        DuplicateTimestampErrors.any (fun s => goStringContains e.Error s)) →
      w.Write name t frames extraLabels =
        some ("failed to write time series: " ++ e.Error)) := by
  have hW : w.Write name t frames extraLabels =
      match checkWriteError (some e) with
      | some err => some ("failed to write time series: " ++ err.Error)
      | none => none := by
    unfold PrometheusWriter.Write
    rw [hp]
    simp only [he]
  have hc : checkWriteError (some e) =
      if e.StatusCode = 400 ∧
          DuplicateTimestampErrors.any (fun s => goStringContains e.Error s) then
        none
      else some e := rfl
  constructor
  · intro h
    rw [hW, hc, if_pos h]
  · intro h
    rw [hW, hc, if_neg h]

/-- Witness for C1: a 400 response carrying the Mimir duplicate-timestamp
signature is swallowed by `Write`. -/
theorem write_duplicate_timestamp_classification_witness :
    PrometheusWriter.Write
      { client := fun _ => some ⟨400, "err-mimir-sample-duplicate-timestamp"⟩ }
      "m" 0 emptyFrames [] = none := by
  have h := write_duplicate_timestamp_classification
    { client := fun _ => some ⟨400, "err-mimir-sample-duplicate-timestamp"⟩ }
    "m" 0 emptyFrames [] []
    ⟨400, "err-mimir-sample-duplicate-timestamp"⟩
    rfl rfl
  exact h.1 ⟨rfl, by decide⟩

/-- Claim C8: When point extraction fails inside `Write`, the extraction error
is returned unchanged and no remote-write call is issued: the result does not
depend on the client's behaviour at all. -/
theorem write_extraction_failure_propagates
    (w w' : PrometheusWriter) (name : String) (t : Int) (frames : Frames)
    (extraLabels : Labels) (err : String)
    (hp : PointsFromFrames name t frames extraLabels = .error err) :
    w.Write name t frames extraLabels = some err ∧
    w.Write name t frames extraLabels = w'.Write name t frames extraLabels := by
  unfold PrometheusWriter.Write
  rw [hp]
  exact ⟨rfl, rfl⟩

/-- Witness for C8: a failing collection reader makes `Write` return its
error untouched. -/
theorem write_extraction_failure_propagates_witness :
    PrometheusWriter.Write { client := fun _ => none } "m" 0 badFrames [] =
      some "input data must be a numeric collection" := by
  have h := write_extraction_failure_propagates
    { client := fun _ => none }
    { client := fun _ => some ⟨500, "boom"⟩ }
    "m" 0 badFrames [] "input data must be a numeric collection" rfl
  exact h.1

/-- Characterization of a successful extraction: the returned points are the
per-ref mapping of the collection, in order. Shared helper. -/
theorem pointsFromFrames_ok_eq
    (name : String) (t : Int) (frames : Frames) (extraLabels : Labels)
    (cr : CollectionReader) (col : NumericCollection) (points : List Point)
    (hcr : frames.CollectionReaderFromFrames = .ok cr)
    (hcol : cr.GetCollection = .ok col)
    (hp : PointsFromFrames name t frames extraLabels = .ok points) :
    points = col.Refs.map (fun ref =>
      ({ Name := name, Labels := refMergedLabels ref extraLabels,
         Metric := { T := t, V := refResolvedValue ref } } : Point)) := by
  have heq : PointsFromFrames name t frames extraLabels =
      .ok (col.Refs.map (fun ref =>
        ({ Name := name, Labels := refMergedLabels ref extraLabels,
           Metric := { T := t, V := refResolvedValue ref } } : Point))) := by
    simp only [PointsFromFrames, hcr, hcol]
    rfl
  have h2 := hp.symm.trans heq
  injection h2

/-- Claim C3: A successful extraction returns exactly one point per series of
the collection, in the collection's iteration order (the i-th point is
derived from the i-th ref, so nothing is resorted, dropped or duplicated),
and every emitted point carries the given name and the given timestamp. -/
theorem pointsFromFrames_order_and_stamp
    (name : String) (t : Int) (frames : Frames) (extraLabels : Labels)
    (cr : CollectionReader) (col : NumericCollection) (points : List Point)
    (hcr : frames.CollectionReaderFromFrames = .ok cr)
    (hcol : cr.GetCollection = .ok col)
    (hp : PointsFromFrames name t frames extraLabels = .ok points) :
    points.length = col.Refs.length ∧
    (∀ i : Nat, points[i]? = (col.Refs[i]?).map (fun ref =>
      ({ Name := name, Labels := refMergedLabels ref extraLabels,
         Metric := { T := t, V := refResolvedValue ref } } : Point))) ∧
    (∀ p ∈ points, p.Name = name ∧ p.Metric.T = t) := by
  have hpts := pointsFromFrames_ok_eq name t frames extraLabels cr col points
    hcr hcol hp
  subst hpts
  refine ⟨List.length_map _ _, fun i => List.getElem?_map _ _ _, ?_⟩
  intro p hpmem
  obtain ⟨ref, _, hrefp⟩ := List.mem_map.mp hpmem
  rw [← hrefp]
  exact ⟨rfl, rfl⟩

/-- Witness for C3 at a one-series collection. -/
theorem pointsFromFrames_order_and_stamp_witness :
    PointsFromFrames "cpu" 7 oneRefFrames [("env", "prod")] =
      .ok [{ Name := "cpu", Labels := [("host", "a"), ("env", "prod")],
             Metric := { T := 7, V := GoFloat.num 1 } }] ∧
    [({ Name := "cpu", Labels := [("host", "a"), ("env", "prod")],
        Metric := { T := 7, V := GoFloat.num 1 } } : Point)].length =
      [refHostA].length :=
  ⟨rfl,
    (pointsFromFrames_order_and_stamp "cpu" 7 oneRefFrames [("env", "prod")]
      { GetCollection := .ok { Refs := [refHostA] } } { Refs := [refHostA] }
      [{ Name := "cpu", Labels := [("host", "a"), ("env", "prod")],
         Metric := { T := 7, V := GoFloat.num 1 } }] rfl rfl rfl).1⟩

/-- Helper: `refResolvedValue` is NaN exactly on empty-or-nil values. -/
theorem refResolvedValue_absent (ref : Ref)
    (h : ref.nullableFloat64Value.2 = true ∨ ref.nullableFloat64Value.1 = none) :
    refResolvedValue ref = GoFloat.nan := by
  unfold refResolvedValue
  rcases hv : ref.nullableFloat64Value with ⟨fp, empty⟩
  rw [hv] at h
  rcases fp with _ | v
  · rfl
  · rcases h with h | h
    · simp only at h
      subst h
      rfl
    · simp at h

/-- Helper: `refResolvedValue` passes a present value through. -/
theorem refResolvedValue_present (ref : Ref) (v : GoFloat)
    (h : ref.nullableFloat64Value = (some v, false)) :
    refResolvedValue ref = v := by
  unfold refResolvedValue
  rw [h]

/-- Claim C4: Per series: an absent (empty) or nil value resolves to NaN; a
present non-nil value is passed through unchanged into the emitted point's
value. -/
theorem pointsFromFrames_value_resolution
    (name : String) (t : Int) (frames : Frames) (extraLabels : Labels)
    (cr : CollectionReader) (col : NumericCollection) (points : List Point)
    (hcr : frames.CollectionReaderFromFrames = .ok cr)
    (hcol : cr.GetCollection = .ok col)
    (hp : PointsFromFrames name t frames extraLabels = .ok points) :
    ∀ i : Nat, ∀ ref p, col.Refs[i]? = some ref → points[i]? = some p →
      ((ref.nullableFloat64Value.2 = true ∨ ref.nullableFloat64Value.1 = none) →
        p.Metric.V = GoFloat.nan) ∧
      (∀ v : GoFloat, ref.nullableFloat64Value = (some v, false) →
        p.Metric.V = v) := by
  have hpts := pointsFromFrames_ok_eq name t frames extraLabels cr col points
    hcr hcol hp
  subst hpts
  intro i ref p href hpi
  rw [List.getElem?_map, href] at hpi
  have hpe := Option.some.inj hpi
  constructor
  · intro hcase
    rw [← hpe]
    exact refResolvedValue_absent ref hcase
  · intro v hv
    rw [← hpe]
    exact refResolvedValue_present ref v hv

/-- A concrete series whose value is absent (empty) and whose label map is
nil. -/
def refAbsent : Ref := { labels := none, nullableFloat64Value := (none, true) }

/-- Concrete frames whose collection holds `refAbsent` then `refHostA`. -/
def twoRefFrames : Frames :=
  { CollectionReaderFromFrames := .ok { GetCollection := .ok { Refs := [refAbsent, refHostA] } } }

/-- The point extracted from `refAbsent` at name `m`, time 3, no extra
labels. -/
def ptAbsentM3 : Point :=
  { Name := "m", Labels := [], Metric := { T := 3, V := GoFloat.nan } }

/-- The point extracted from `refHostA` at name `m`, time 3, no extra
labels. -/
def ptHostAM3 : Point :=
  { Name := "m", Labels := [("host", "a")], Metric := { T := 3, V := GoFloat.num 1 } }

/-- Witness for C4: one absent value and one present value. -/
theorem pointsFromFrames_value_resolution_witness :
    PointsFromFrames "m" 3 twoRefFrames [] = .ok [ptAbsentM3, ptHostAM3] ∧
    ptAbsentM3.Metric.V = GoFloat.nan :=
  ⟨rfl,
    (pointsFromFrames_value_resolution "m" 3 twoRefFrames []
      { GetCollection := .ok { Refs := [refAbsent, refHostA] } }
      { Refs := [refAbsent, refHostA] } [ptAbsentM3, ptHostAM3]
      rfl rfl rfl 0 refAbsent ptAbsentM3 rfl rfl).1 (.inl rfl)⟩

/-- A concrete series with labels `{env: dev}` and value 2. -/
def refEnvDev : Ref :=
  { labels := some [("env", "dev")],
    nullableFloat64Value := (some (GoFloat.num 2), false) }

/-- The point extracted from `refEnvDev` with extra label `{env: prod}`:
the extra label overrides the series's own `env`. -/
def ptEnvProd : Point :=
  { Name := "m", Labels := [("env", "prod")], Metric := { T := 0, V := GoFloat.num 2 } }

/-- Counterexample for C2: when `extraLabels` itself carries a `__name__`
entry, the overlay happens after the `__name__` deletion, so the emitted
point's labels do contain `__name__` — the claimed exclusion fails. -/
theorem pointsFromFrames_extra_name_label_counterexample :
    PointsFromFrames "m" 0 oneRefFrames [("__name__", "x")] =
      .ok [{ Name := "m", Labels := [("host", "a"), ("__name__", "x")],
             Metric := { T := 0, V := GoFloat.num 1 } }] ∧
    mapGet [("host", "a"), ("__name__", "x")] "__name__" = some "x" :=
  ⟨rfl, rfl⟩

/-- Claim C2 (amended): For every name, timestamp, input collection and
`extraLabels` mapping that does not itself contain the key `__name__`
(keys unique, as for a Go map), on which extraction succeeds: every returned
point's labels exclude `__name__` and include every entry of `extraLabels`,
with `extraLabels` overriding same-key labels from the input series. -/
theorem pointsFromFrames_labels_exclude_name_include_extra
    (name : String) (t : Int) (frames : Frames) (extraLabels : Labels)
    (points : List Point)
    (hname : "__name__" ∉ mapKeys extraLabels)
    (hnodup : (mapKeys extraLabels).Nodup)
    (hp : PointsFromFrames name t frames extraLabels = .ok points) :
    ∀ p ∈ points, mapGet p.Labels "__name__" = none ∧
      ∀ kv ∈ extraLabels, mapGet p.Labels kv.1 = some kv.2 := by
  rcases hfr : frames.CollectionReaderFromFrames with err | cr
  · rw [PointsFromFrames, hfr] at hp
    cases hp
  · rcases hcol : cr.GetCollection with err | col
    · rw [PointsFromFrames, hfr] at hp
      simp only [hcol] at hp
      cases hp
    · have hpts := pointsFromFrames_ok_eq name t frames extraLabels cr col
        points hfr hcol hp
      subst hpts
      intro p hpmem
      obtain ⟨ref, _, hrefp⟩ := List.mem_map.mp hpmem
      rw [← hrefp]
      simp only [refMergedLabels]
      constructor
      · rw [mapGet_foldl_insert_not_mem extraLabels "__name__" hname,
          mapGet_mapErase_self]
      · intro kv hkv
        exact mapGet_foldl_insert_mem extraLabels kv hkv hnodup _

/-- Witness for C2 (amended): extra label `env` overrides the series's own
`env` label and `__name__` is absent. -/
theorem pointsFromFrames_labels_exclude_name_include_extra_witness :
    PointsFromFrames "m" 0
      { CollectionReaderFromFrames := .ok { GetCollection := .ok { Refs := [refEnvDev] } } }
      [("env", "prod")] = .ok [ptEnvProd] ∧
    (mapGet ptEnvProd.Labels "__name__" = none ∧
      ∀ kv ∈ [("env", "prod")], mapGet ptEnvProd.Labels kv.1 = some kv.2) := by
  refine ⟨rfl, ?_⟩
  have h := pointsFromFrames_labels_exclude_name_include_extra "m" 0
    { CollectionReaderFromFrames := .ok { GetCollection := .ok { Refs := [refEnvDev] } } }
    [("env", "prod")] [ptEnvProd] (by decide) (by decide) rfl
  exact h ptEnvProd (by simp)

/-- Claim C10: A series whose label set is nil/absent is handled totally: the
point at its index is emitted with the `extraLabels` overlay of the empty
label map (the nil map is replaced by a fresh empty one), and extraction
succeeds. -/
theorem pointsFromFrames_nil_labels_total
    (name : String) (t : Int) (frames : Frames) (extraLabels : Labels)
    (cr : CollectionReader) (col : NumericCollection) (i : Nat) (ref : Ref)
    (hcr : frames.CollectionReaderFromFrames = .ok cr)
    (hcol : cr.GetCollection = .ok col)
    (hi : col.Refs[i]? = some ref) (hnil : ref.labels = none) :
    ∃ points p, PointsFromFrames name t frames extraLabels = .ok points ∧
      points[i]? = some p ∧
      p.Labels = extraLabels.foldl (fun m kv => mapInsert m kv.1 kv.2)
        ([] : Labels) := by
  have heq : PointsFromFrames name t frames extraLabels =
      .ok (col.Refs.map (fun ref =>
        ({ Name := name, Labels := refMergedLabels ref extraLabels,
           Metric := { T := t, V := refResolvedValue ref } } : Point))) := by
    simp only [PointsFromFrames, hcr, hcol]
    rfl
  refine ⟨_,
    { Name := name, Labels := refMergedLabels ref extraLabels,
      Metric := { T := t, V := refResolvedValue ref } }, heq, ?_, ?_⟩
  · rw [List.getElem?_map, hi]
    rfl
  · simp only [refMergedLabels, hnil]
    rfl

/-- Witness for C10: a nil label map with an extra label overlay. -/
theorem pointsFromFrames_nil_labels_total_witness :
    ∃ points p,
      PointsFromFrames "m" 3
        { CollectionReaderFromFrames := .ok { GetCollection := .ok { Refs := [refAbsent] } } }
        [("env", "prod")] = .ok points ∧
      points[0]? = some p ∧
      p.Labels = [("env", "prod")].foldl (fun m kv => mapInsert m kv.1 kv.2)
        ([] : Labels) :=
  pointsFromFrames_nil_labels_total "m" 3
    { CollectionReaderFromFrames := .ok { GetCollection := .ok { Refs := [refAbsent] } } }
    [("env", "prod")]
    { GetCollection := .ok { Refs := [refAbsent] } } { Refs := [refAbsent] }
    0 refAbsent rfl rfl rfl rfl

/-- Counterexample for C7: with `extraLabels = {__name__: x}` the point's
labels contain `__name__`, so the wire label list built by `Write` carries
two `__name__` labels, not exactly one; a client inspecting the batch
observes both. -/
theorem write_two_name_labels_counterexample :
    PointsFromFrames "m" 0 oneRefFrames [("__name__", "x")] =
      .ok [{ Name := "m", Labels := [("host", "a"), ("__name__", "x")],
             Metric := { T := 0, V := GoFloat.num 1 } }] ∧
    ((promremoteLabelsFromPoint
        { Name := "m", Labels := [("host", "a"), ("__name__", "x")],
          Metric := { T := 0, V := GoFloat.num 1 } }).filter
      (fun l => l.Name == "__name__")).length = 2 ∧
    PrometheusWriter.Write
      ⟨fun series =>
        if ((series.map (fun s => s.Labels)).flatten.filter
            (fun l => l.Name == "__name__")).length = 2 then
          some ⟨500, "two name labels"⟩
        else none⟩
      "m" 0 oneRefFrames [("__name__", "x")] =
      some "failed to write time series: two name labels" :=
  ⟨rfl, rfl, rfl⟩

/-- Claim C7 (amended): For every Point whose labels exclude `__name__` (as is
the case for every point `Write` builds whenever `extraLabels` does not carry
`__name__`), the wire label list contains exactly one `__name__` label, its
value is the Point's name, it is the first element, and the remaining labels
are the Point's label entries in map order; `Write`'s series use exactly
these label lists. -/
theorem promremoteLabelsFromPoint_name_first (p : Point)
    (h : mapGet p.Labels "__name__" = none) :
    promremoteLabelsFromPoint p =
      { Name := "__name__", Value := p.Name } ::
        p.Labels.map (fun kv => { Name := kv.1, Value := kv.2 }) ∧
    ((promremoteLabelsFromPoint p).filter
      (fun l => l.Name == "__name__")).length = 1 ∧
    (∀ points : List Point,
      (timeSeriesFromPoints points).map (fun s => s.Labels) =
        points.map promremoteLabelsFromPoint) := by
  have hnone : ∀ kv ∈ p.Labels, (kv.1 == "__name__") = false := by
    rw [mapGet, Option.map_eq_none', List.find?_eq_none] at h
    intro kv hkv
    simpa using h kv hkv
  refine ⟨rfl, ?_, ?_⟩
  · have hfil : (p.Labels.map
        (fun kv => ({ Name := kv.1, Value := kv.2 } : PromLabel))).filter
          (fun l => l.Name == "__name__") = [] := by
      rw [List.filter_eq_nil_iff]
      intro l hl
      obtain ⟨kv, hkv, hlkv⟩ := List.mem_map.mp hl
      rw [← hlkv]
      simpa using hnone kv hkv
    rw [promremoteLabelsFromPoint, List.filter_cons]
    simp [hfil]
  · intro points
    rw [timeSeriesFromPoints, List.map_map]
    rfl

/-- Witness for C7 (amended) on the example point of the spec. -/
theorem promremoteLabelsFromPoint_name_first_witness :
    promremoteLabelsFromPoint ptEnvProd =
      [⟨"__name__", "m"⟩, ⟨"env", "prod"⟩] ∧
    ((promremoteLabelsFromPoint ptEnvProd).filter
      (fun l => l.Name == "__name__")).length = 1 := by
  have h := promremoteLabelsFromPoint_name_first ptEnvProd rfl
  exact ⟨h.1, h.2.1⟩

/-- A model of `net/url.Parse` that accepts every string (Go's parser is
lenient; concrete instances only need some fixed behaviour). -/
def urlAlwaysOk : String → Except String Unit := fun _ => .ok ()

/-- A configuration with a username but no password. -/
def settingsUserNoPass : RecordingRuleSettings :=
  { URL := "http://localhost:9090", Timeout := 1, BasicAuthUsername := "user",
    BasicAuthPassword := "", CustomHeaders := [] }

/-- A configuration with no auth and a zero timeout. -/
def settingsTimeout0 : RecordingRuleSettings :=
  { URL := "", Timeout := 0, BasicAuthUsername := "",
    BasicAuthPassword := "", CustomHeaders := [] }

/-- A valid configuration with no auth. -/
def settingsNoAuth : RecordingRuleSettings :=
  { URL := "http://localhost:9090", Timeout := 1, BasicAuthUsername := "",
    BasicAuthPassword := "", CustomHeaders := [] }

/-- A validation failure makes `NewPrometheusWriter` return that error for
every transport factory and client constructor. Shared helper. -/
theorem newPrometheusWriter_of_validate_error
    (url_Parse : String → Except String Unit)
    (settings : RecordingRuleSettings) (msg : String)
    (h : validateSettings url_Parse settings = some msg)
    (getTransport : HttpClientOptions → Except String Nat)
    (newClient : PromClientConfig → Except String PromClient) :
    NewPrometheusWriter url_Parse settings getTransport newClient =
      .error msg := by
  unfold NewPrometheusWriter
  rw [h]

/-- Validation passes when all three checks pass. Shared helper. -/
theorem validateSettings_none
    (url_Parse : String → Except String Unit)
    (settings : RecordingRuleSettings)
    (hauth : ¬ (settings.BasicAuthUsername ≠ "" ∧
      settings.BasicAuthPassword = ""))
    (hurl : url_Parse settings.URL = .ok ())
    (ht : settings.Timeout > 0) :
    validateSettings url_Parse settings = none := by
  unfold validateSettings
  rw [if_neg hauth]
  simp only [hurl]
  rw [if_neg (not_le.mpr ht)]

/-- Counterexample for C6: a configuration with timeout 1 and a URL the
parser accepts whose construction nevertheless fails, because the basic-auth
constraint is violated — "with timeout > 0 and a valid URL the validation
step passes" does not hold for every configuration. -/
theorem validateSettings_pass_counterexample :
    validateSettings urlAlwaysOk settingsUserNoPass =
      some "basic auth password is required if username is set" ∧
    NewPrometheusWriter urlAlwaysOk settingsUserNoPass
      (fun _ => .ok 0) (fun c => .ok { cfg := c }) =
      .error "basic auth password is required if username is set" :=
  ⟨rfl, rfl⟩

/-- Claim C6 (amended): Construction fails, before the transport factory or
client constructor is even consulted, whenever the timeout is not strictly
positive or the URL does not parse; with timeout > 0, a parsing URL and the
basic-auth constraint satisfied, the validation step passes. -/
theorem validateSettings_timeout_url
    (url_Parse : String → Except String Unit)
    (settings : RecordingRuleSettings) :
    ((settings.Timeout ≤ 0 ∨ ∃ err, url_Parse settings.URL = .error err) →
      ∃ msg, validateSettings url_Parse settings = some msg ∧
        ∀ getTransport newClient,
          NewPrometheusWriter url_Parse settings getTransport newClient =
            .error msg) ∧
    (settings.Timeout > 0 → url_Parse settings.URL = .ok () →
      ¬ (settings.BasicAuthUsername ≠ "" ∧
        settings.BasicAuthPassword = "") →
      validateSettings url_Parse settings = none) := by
  constructor
  · intro h
    by_cases hauth : settings.BasicAuthUsername ≠ "" ∧
        settings.BasicAuthPassword = ""
    · have hval : validateSettings url_Parse settings =
          some "basic auth password is required if username is set" := by
        unfold validateSettings
        rw [if_pos hauth]
      exact ⟨_, hval, fun gt nc =>
        newPrometheusWriter_of_validate_error _ _ _ hval gt nc⟩
    · rcases hurl : url_Parse settings.URL with err | u
      · have hval : validateSettings url_Parse settings =
            some ("invalid URL: " ++ err) := by
          unfold validateSettings
          rw [if_neg hauth]
          simp only [hurl]
        exact ⟨_, hval, fun gt nc =>
          newPrometheusWriter_of_validate_error _ _ _ hval gt nc⟩
      · have ht : settings.Timeout ≤ 0 := by
          rcases h with ht | ⟨err, herr⟩
          · exact ht
          · rw [hurl] at herr
            cases herr
        have hval : validateSettings url_Parse settings =
            some "timeout must be greater than 0" := by
          unfold validateSettings
          rw [if_neg hauth]
          simp only [hurl]
          rw [if_pos ht]
        exact ⟨_, hval, fun gt nc =>
          newPrometheusWriter_of_validate_error _ _ _ hval gt nc⟩
  · intro ht hurl hauth
    exact validateSettings_none url_Parse settings hauth hurl ht

/-- Witness for C6 (amended): timeout 0 fails, independently of the injected
collaborators. -/
theorem validateSettings_timeout_url_witness :
    (settingsTimeout0.Timeout ≤ 0 ∨
      ∃ err, urlAlwaysOk settingsTimeout0.URL = .error err) ∧
    ∃ msg, validateSettings urlAlwaysOk settingsTimeout0 = some msg ∧
      ∀ getTransport newClient,
        NewPrometheusWriter urlAlwaysOk settingsTimeout0 getTransport
          newClient = .error msg :=
  ⟨Or.inl (le_refl 0),
    (validateSettings_timeout_url urlAlwaysOk settingsTimeout0).1
      (Or.inl (le_refl 0))⟩

/-- Counterexample for C5: with both auth fields empty but a zero timeout,
construction still fails — "construction with both empty succeeds" does not
hold for every configuration. -/
theorem newPrometheusWriter_both_empty_counterexample :
    settingsTimeout0.BasicAuthUsername = "" ∧
    settingsTimeout0.BasicAuthPassword = "" ∧
    NewPrometheusWriter urlAlwaysOk settingsTimeout0 (fun _ => .ok 0)
      (fun c => .ok { cfg := c }) = .error "timeout must be greater than 0" :=
  ⟨rfl, rfl, rfl⟩

/-- Claim C5 (amended): A non-empty username with an empty password fails
construction with the configuration error; an empty username attaches no
basic-auth option regardless of the password (the auth options built are
`none`, and construction only ever consults the transport factory at
option sets with `BasicAuth = none`); with both fields empty, construction
succeeds with a no-auth transport provided the remaining validations pass
and the injected transport factory and client constructor succeed. -/
theorem newPrometheusWriter_basic_auth
    (url_Parse : String → Except String Unit)
    (settings : RecordingRuleSettings) :
    (settings.BasicAuthUsername ≠ "" → settings.BasicAuthPassword = "" →
      ∀ getTransport newClient,
        NewPrometheusWriter url_Parse settings getTransport newClient =
          .error "basic auth password is required if username is set") ∧
    (settings.BasicAuthUsername = "" →
      createAuthOpts settings.BasicAuthUsername settings.BasicAuthPassword =
        none ∧
      ∀ getTransport getTransport' newClient,
        (∀ opts : HttpClientOptions, opts.BasicAuth = none →
          getTransport opts = getTransport' opts) →
        NewPrometheusWriter url_Parse settings getTransport newClient =
          NewPrometheusWriter url_Parse settings getTransport' newClient) ∧
    (settings.BasicAuthUsername = "" → settings.BasicAuthPassword = "" →
      url_Parse settings.URL = .ok () → settings.Timeout > 0 →
      ∀ getTransport newClient rt client,
        getTransport { BasicAuth := none, Header := settings.CustomHeaders } =
          .ok rt →
        newClient ⟨"grafana-recording-rule", settings.URL, settings.Timeout, rt⟩ =
          .ok client →
        NewPrometheusWriter url_Parse settings getTransport newClient =
          .ok { client := client }) := by
  refine ⟨?_, ?_, ?_⟩
  · intro hu hp gt nc
    have hval : validateSettings url_Parse settings =
        some "basic auth password is required if username is set" := by
      unfold validateSettings
      rw [if_pos ⟨hu, hp⟩]
    exact newPrometheusWriter_of_validate_error _ _ _ hval gt nc
  · intro hu
    have hca : createAuthOpts settings.BasicAuthUsername
        settings.BasicAuthPassword = none := by
      unfold createAuthOpts
      rw [if_pos hu]
    refine ⟨hca, ?_⟩
    intro gt gt' nc hEq
    unfold NewPrometheusWriter
    rcases hval : validateSettings url_Parse settings with _ | msg
    · rw [hca]
      rw [hEq { BasicAuth := none, Header := settings.CustomHeaders } rfl]
    · rfl
  · intro hu hp hurl ht gt nc rt client hgt hnc
    have hval : validateSettings url_Parse settings = none :=
      validateSettings_none url_Parse settings
        (fun hc => hc.1 hu) hurl ht
    have hca : createAuthOpts settings.BasicAuthUsername
        settings.BasicAuthPassword = none := by
      unfold createAuthOpts
      rw [if_pos hu]
    simp only [NewPrometheusWriter, hval, hca, hgt, hnc]

/-- Witness for C5 (amended): construction with both auth fields empty
succeeds with a no-auth transport. -/
theorem newPrometheusWriter_basic_auth_witness :
    NewPrometheusWriter urlAlwaysOk settingsNoAuth (fun _ => .ok 7)
      (fun c => .ok { cfg := c }) =
      .ok ⟨⟨⟨"grafana-recording-rule", "http://localhost:9090", 1, 7⟩⟩⟩ :=
  (newPrometheusWriter_basic_auth urlAlwaysOk settingsNoAuth).2.2
    rfl rfl rfl (by decide) (fun _ => .ok 7) (fun c => .ok { cfg := c }) 7
    ⟨⟨"grafana-recording-rule", "http://localhost:9090", 1, 7⟩⟩ rfl rfl

/-- A heap of Go label maps, addressed by index. The pure embedding of
`PointsFromFrames` erases the source's in-place map mutations; this store
makes them explicit so that the no-mutation / no-aliasing claims about the
extractor can be stated. -/
structure Store where
  cells : List Labels
deriving Repr

/-- Read the label map at address `a` (a dangling address reads as empty). -/
def Store.read (s : Store) (a : Nat) : Labels := s.cells.getD a []

/-- Allocate a fresh map cell; returns the extended store and the fresh
address. -/
def Store.alloc (s : Store) (l : Labels) : Store × Nat :=
  ({ cells := s.cells ++ [l] }, s.cells.length)

/-- Overwrite the map at address `a` in place. -/
def Store.write (s : Store) (a : Nat) (l : Labels) : Store :=
  { cells := s.cells.set a l }

/-- A series ref whose label map lives in the heap (`none` models a nil
map), value abstracted as in `Ref`. -/
structure HRef where
  labelsAddr : Option Nat
  nullableFloat64Value : Option GoFloat × Bool
deriving DecidableEq, Repr

/-- A point whose label map lives in the heap. -/
structure HPoint where
  Name : String
  labelsAddr : Nat
  Metric : Metric
deriving DecidableEq, Repr

/-- The pure `Ref` view of a heap ref under a store. -/
def toRef (s : Store) (r : HRef) : Ref :=
  { labels := r.labelsAddr.map s.read,
    nullableFloat64Value := r.nullableFloat64Value }

theorem Store.read_write_self (s : Store) (a : Nat) (l : Labels)
    (h : a < s.cells.length) : (s.write a l).read a = l := by
  unfold Store.write Store.read
  rw [List.getD_eq_getElem?_getD, List.getElem?_set]
  simp [h]

theorem Store.read_write_other (s : Store) (a b : Nat) (l : Labels)
    (h : b ≠ a) : (s.write a l).read b = s.read b := by
  unfold Store.write Store.read
  rw [List.getD_eq_getElem?_getD, List.getElem?_set,
    if_neg (fun hab => h hab.symm), ← List.getD_eq_getElem?_getD]

theorem Store.write_length (s : Store) (a : Nat) (l : Labels) :
    (s.write a l).cells.length = s.cells.length := List.length_set _ _ _

theorem Store.read_alloc_self (s : Store) (l : Labels) :
    (s.alloc l).1.read s.cells.length = l := by
  unfold Store.alloc Store.read
  rw [List.getD_eq_getElem?_getD, List.getElem?_concat_length]
  rfl

theorem Store.read_alloc_old (s : Store) (l : Labels) (b : Nat)
    (h : b < s.cells.length) : (s.alloc l).1.read b = s.read b := by
  unfold Store.alloc Store.read
  rw [List.getD_eq_getElem?_getD, List.getElem?_append_left h,
    ← List.getD_eq_getElem?_getD]

theorem Store.alloc_length (s : Store) (l : Labels) :
    (s.alloc l).1.cells.length = s.cells.length + 1 := by
  unfold Store.alloc
  simp

/-- The loop body of `PointsFromFrames`, instrumented with an explicit heap:
`GetLabels().Copy()` reads the source map and allocates a fresh cell (a nil
map becomes a fresh empty one via the guard), then `delete(labels,
"__name__")` and the `extraLabels` assignments mutate that fresh cell in
place. -/
def extractPointHeap (name : String) (t : Int) (extraLabels : Labels)
    (st : Store) (ref : HRef) : Store × HPoint :=
  let f : GoFloat :=
    match ref.nullableFloat64Value with
    | (some fp, false) => fp
    | _ => GoFloat.nan
  let src : Labels :=
    match ref.labelsAddr with
    | none => []
    | some a => st.read a
  let stA := st.alloc (mapCopy src)
  let a := stA.2
  let st2 := stA.1.write a (mapErase (stA.1.read a) "__name__")
  let st3 := extraLabels.foldl
    (fun s kv => s.write a (mapInsert (s.read a) kv.1 kv.2)) st2
  (st3, { Name := name, labelsAddr := a, Metric := { T := t, V := f } })

/-- The `PointsFromFrames` loop over a collection's refs with the heap
threaded through (the loop's append-to-end is modelled by cons plus
recursion). -/
def pointsFromRefsHeap (name : String) (t : Int) (extraLabels : Labels) :
    List HRef → Store → Store × List HPoint
  | [], st => (st, [])
  | r :: rs, st =>
    let step := extractPointHeap name t extraLabels st r
    let rest := pointsFromRefsHeap name t extraLabels rs step.1
    (rest.1, step.2 :: rest.2)

/-- The repeated in-place `extraLabels` assignments at a fixed valid address:
length preserved, other cells untouched, and the cell at `a` holds the pure
fold of `mapInsert`. Shared helper. -/
theorem foldl_write_at_spec (extraLabels : Labels) (a : Nat) :
    ∀ s : Store, a < s.cells.length →
      (extraLabels.foldl
        (fun s kv => s.write a (mapInsert (s.read a) kv.1 kv.2)) s).cells.length
          = s.cells.length ∧
      (∀ b, b ≠ a →
        (extraLabels.foldl
          (fun s kv => s.write a (mapInsert (s.read a) kv.1 kv.2)) s).read b
            = s.read b) ∧
      (extraLabels.foldl
        (fun s kv => s.write a (mapInsert (s.read a) kv.1 kv.2)) s).read a
          = extraLabels.foldl (fun m kv => mapInsert m kv.1 kv.2) (s.read a) := by
  induction extraLabels with
  | nil => exact fun s _ => ⟨rfl, fun _ _ => rfl, rfl⟩
  | cons kv rest ih =>
    intro s h
    have h1 : a < (s.write a (mapInsert (s.read a) kv.1 kv.2)).cells.length := by
      rw [Store.write_length]
      exact h
    obtain ⟨hl, ho, ha⟩ := ih (s.write a (mapInsert (s.read a) kv.1 kv.2)) h1
    refine ⟨?_, ?_, ?_⟩
    · rw [List.foldl_cons, hl, Store.write_length]
    · intro b hb
      rw [List.foldl_cons, ho b hb, Store.read_write_other _ _ _ _ hb]
    · rw [List.foldl_cons, ha, Store.read_write_self _ _ _ h, List.foldl_cons]

/-- The alloc-erase-overlay store sequence of one extraction step, over an
arbitrary allocated map `m`: the store grows by exactly the fresh cell,
pre-existing cells are untouched, and the fresh cell ends up holding the pure
erase-then-overlay of `m`. Shared helper. -/
theorem allocEraseFold_spec (extraLabels : Labels) (st : Store) (m : Labels) :
    (extraLabels.foldl
      (fun s kv => s.write (st.alloc m).2 (mapInsert (s.read (st.alloc m).2) kv.1 kv.2))
      ((st.alloc m).1.write (st.alloc m).2
        (mapErase ((st.alloc m).1.read (st.alloc m).2) "__name__"))).cells.length
        = st.cells.length + 1 ∧
    (∀ b, b < st.cells.length →
      (extraLabels.foldl
        (fun s kv => s.write (st.alloc m).2 (mapInsert (s.read (st.alloc m).2) kv.1 kv.2))
        ((st.alloc m).1.write (st.alloc m).2
          (mapErase ((st.alloc m).1.read (st.alloc m).2) "__name__"))).read b
          = st.read b) ∧
    (extraLabels.foldl
      (fun s kv => s.write (st.alloc m).2 (mapInsert (s.read (st.alloc m).2) kv.1 kv.2))
      ((st.alloc m).1.write (st.alloc m).2
        (mapErase ((st.alloc m).1.read (st.alloc m).2) "__name__"))).read
          st.cells.length
        = extraLabels.foldl (fun mm kv => mapInsert mm kv.1 kv.2)
            (mapErase m "__name__") := by
  rw [show (st.alloc m).2 = st.cells.length from rfl]
  have hn1 : st.cells.length <
      ((st.alloc m).1.write st.cells.length
        (mapErase ((st.alloc m).1.read st.cells.length) "__name__")).cells.length := by
    rw [Store.write_length, Store.alloc_length]
    exact Nat.lt_succ_self _
  obtain ⟨hfl, hfo, hfa⟩ := foldl_write_at_spec extraLabels st.cells.length _ hn1
  refine ⟨?_, ?_, ?_⟩
  · rw [hfl, Store.write_length, Store.alloc_length]
  · intro b hb
    have hbne : b ≠ st.cells.length := Nat.ne_of_lt hb
    rw [hfo b hbne, Store.read_write_other _ _ _ _ hbne,
      Store.read_alloc_old st m b hb]
  · have hlt : st.cells.length < (st.alloc m).1.cells.length := by
      rw [Store.alloc_length]
      exact Nat.lt_succ_self _
    rw [hfa, Store.read_write_self _ _ _ hlt, Store.read_alloc_self]

/-- One heap extraction step: the store grows by exactly the fresh cell, no
pre-existing cell changes, the emitted point addresses the fresh cell, and
that cell holds exactly the merged labels the pure extractor computes for
the ref's current view. Shared helper. -/
theorem extractPointHeap_spec (name : String) (t : Int) (extraLabels : Labels)
    (st : Store) (ref : HRef) :
    (extractPointHeap name t extraLabels st ref).1.cells.length =
      st.cells.length + 1 ∧
    (∀ b, b < st.cells.length →
      (extractPointHeap name t extraLabels st ref).1.read b = st.read b) ∧
    (extractPointHeap name t extraLabels st ref).2 =
      { Name := name, labelsAddr := st.cells.length,
        Metric := { T := t, V := refResolvedValue (toRef st ref) } } ∧
    (extractPointHeap name t extraLabels st ref).1.read st.cells.length =
      refMergedLabels (toRef st ref) extraLabels := by
  obtain ⟨la, nv⟩ := ref
  simp only [extractPointHeap]
  obtain ⟨h1, h2, h3⟩ := allocEraseFold_spec extraLabels st
    (mapCopy (match la with | none => ([] : Labels) | some a => st.read a))
  refine ⟨h1, h2, rfl, ?_⟩
  rw [h3]
  rcases la with _ | addr
  · rfl
  · rfl

/-- Full characterization of the heap-instrumented extraction loop over a
store whose refs are valid addresses: the store is only extended (no
pre-existing cell changes), the i-th point addresses the i-th fresh cell,
and each fresh cell holds the pure merged labels of the corresponding input
ref. Shared helper. -/
theorem pointsFromRefsHeap_spec (name : String) (t : Int)
    (extraLabels : Labels) :
    ∀ (refs : List HRef) (st : Store),
      (∀ r ∈ refs, ∀ a, r.labelsAddr = some a → a < st.cells.length) →
      (pointsFromRefsHeap name t extraLabels refs st).1.cells.length =
        st.cells.length + refs.length ∧
      (∀ b, b < st.cells.length →
        (pointsFromRefsHeap name t extraLabels refs st).1.read b = st.read b) ∧
      (pointsFromRefsHeap name t extraLabels refs st).2.length = refs.length ∧
      (∀ i : Nat, (pointsFromRefsHeap name t extraLabels refs st).2[i]? =
        (refs[i]?).map (fun r =>
          ({ Name := name, labelsAddr := st.cells.length + i,
             Metric := { T := t, V := refResolvedValue (toRef st r) } } :
            HPoint))) ∧
      (∀ i r, refs[i]? = some r →
        (pointsFromRefsHeap name t extraLabels refs st).1.read
          (st.cells.length + i) = refMergedLabels (toRef st r) extraLabels) := by
  intro refs
  induction refs with
  | nil =>
    intro st _
    refine ⟨by simp [pointsFromRefsHeap], fun b _ => rfl,
      rfl, fun i => by simp [pointsFromRefsHeap], fun i r h => by simp at h⟩
  | cons r rs ih =>
    intro st hv
    obtain ⟨hs1, hs2, hs3, hs4⟩ := extractPointHeap_spec name t extraLabels st r
    have hv' : ∀ r' ∈ rs, ∀ a, r'.labelsAddr = some a →
        a < (extractPointHeap name t extraLabels st r).1.cells.length := by
      intro r' hr' a ha
      rw [hs1]
      exact Nat.lt_succ_of_lt (hv r' (List.mem_cons_of_mem _ hr') a ha)
    obtain ⟨ih1, ih2, ih3, ih4, ih5⟩ :=
      ih (extractPointHeap name t extraLabels st r).1 hv'
    have htoRef : ∀ r' ∈ rs,
        toRef (extractPointHeap name t extraLabels st r).1 r' = toRef st r' := by
      intro r' hr'
      unfold toRef
      rcases hla : r'.labelsAddr with _ | a
      · rfl
      · rw [Option.map_some', Option.map_some',
          hs2 a (hv r' (List.mem_cons_of_mem _ hr') a hla)]
    have hstep : pointsFromRefsHeap name t extraLabels (r :: rs) st =
        ((pointsFromRefsHeap name t extraLabels rs
            (extractPointHeap name t extraLabels st r).1).1,
          (extractPointHeap name t extraLabels st r).2 ::
            (pointsFromRefsHeap name t extraLabels rs
              (extractPointHeap name t extraLabels st r).1).2) := rfl
    rw [hstep]
    refine ⟨?_, ?_, ?_, ?_, ?_⟩
    · rw [ih1, hs1, List.length_cons]
      omega
    · intro b hb
      have hb' : b < (extractPointHeap name t extraLabels st r).1.cells.length := by
        rw [hs1]
        exact Nat.lt_succ_of_lt hb
      rw [ih2 b hb', hs2 b hb]
    · rw [List.length_cons, ih3]
      rfl
    · intro i
      rcases i with _ | i
      · rw [List.getElem?_cons_zero, List.getElem?_cons_zero,
          Option.map_some', hs3]
        rw [show st.cells.length + 0 = st.cells.length from rfl]
      · rw [List.getElem?_cons_succ, List.getElem?_cons_succ]
        have := ih4 i
        rw [hs1] at this
        rw [show st.cells.length + (i + 1) = st.cells.length + 1 + i by omega]
        exact this
    · intro i r' hir'
      rcases i with _ | i
      · rw [List.getElem?_cons_zero] at hir'
        have hr : r' = r := (Option.some.inj hir').symm
        subst hr
        have hlt : st.cells.length <
            (extractPointHeap name t extraLabels st r').1.cells.length := by
          rw [hs1]
          exact Nat.lt_succ_self _
        rw [show st.cells.length + 0 = st.cells.length from rfl,
          ih2 st.cells.length hlt, hs4]
      · rw [List.getElem?_cons_succ] at hir'
        have hmem : r' ∈ rs := List.getElem?_mem hir'
        have := ih5 i r' hir'
        rw [hs1, htoRef r' hmem] at this
        rw [show st.cells.length + (i + 1) = st.cells.length + 1 + i by omega]
        exact this

/-- Claim C9: The extractor is free of side effects on its input: over the
heap-instrumented embedding of the `PointsFromFrames` loop (where the Go map
mutations `Copy`, `delete` and assignment are explicit), no pre-existing
label map cell is ever changed, every emitted point's label map is a freshly
allocated cell (never an alias of a caller's map), and each fresh cell holds
exactly the value the pure extractor computes from the inputs — so outputs
are a function of the inputs alone. -/
theorem pointsFromFrames_no_mutation_no_alias
    (name : String) (t : Int) (extraLabels : Labels) (refs : List HRef)
    (st : Store)
    (hvalid : ∀ r ∈ refs, ∀ a, r.labelsAddr = some a → a < st.cells.length) :
    (∀ b, b < st.cells.length →
      (pointsFromRefsHeap name t extraLabels refs st).1.read b = st.read b) ∧
    (∀ p ∈ (pointsFromRefsHeap name t extraLabels refs st).2,
      st.cells.length ≤ p.labelsAddr) ∧
    (∀ (i : Nat) (r : HRef), refs[i]? = some r →
      ∃ p : HPoint,
        (pointsFromRefsHeap name t extraLabels refs st).2[i]? = some p ∧
        p.Name = name ∧
        p.Metric = { T := t, V := refResolvedValue (toRef st r) } ∧
        (pointsFromRefsHeap name t extraLabels refs st).1.read p.labelsAddr =
          refMergedLabels (toRef st r) extraLabels) := by
  obtain ⟨h1, h2, h3, h4, h5⟩ :=
    pointsFromRefsHeap_spec name t extraLabels refs st hvalid
  refine ⟨h2, ?_, ?_⟩
  · intro p hp
    obtain ⟨i, hlt, hgi⟩ := List.mem_iff_getElem.mp hp
    have hpi : (pointsFromRefsHeap name t extraLabels refs st).2[i]? = some p :=
      List.getElem?_eq_some.mpr ⟨hlt, hgi⟩
    rw [h4 i] at hpi
    rcases hri : refs[i]? with _ | r
    · rw [hri] at hpi
      cases hpi
    · rw [hri, Option.map_some'] at hpi
      have hpr := Option.some.inj hpi
      rw [← hpr]
      exact Nat.le_add_right _ _
  · intro i r hir
    refine ⟨⟨name, st.cells.length + i, t, refResolvedValue (toRef st r)⟩,
      ?_, rfl, rfl, ?_⟩
    · rw [h4 i, hir, Option.map_some']
    · exact h5 i r hir

/-- Witness for C9: one caller-owned label map cell survives extraction
unchanged and every emitted point addresses a fresh cell. -/
theorem pointsFromFrames_no_mutation_no_alias_witness :
    (pointsFromRefsHeap "m" 0 [("env", "prod")]
      [⟨some 0, (some (GoFloat.num 1), false)⟩]
      ⟨[[("host", "a")]]⟩).1.read 0 = [("host", "a")] ∧
    (∀ p ∈ (pointsFromRefsHeap "m" 0 [("env", "prod")]
      [⟨some 0, (some (GoFloat.num 1), false)⟩]
      ⟨[[("host", "a")]]⟩).2, 1 ≤ p.labelsAddr) := by
  have hvalid : ∀ r ∈ [(⟨some 0, (some (GoFloat.num 1), false)⟩ : HRef)],
      ∀ a, r.labelsAddr = some a →
        a < (⟨[[("host", "a")]]⟩ : Store).cells.length := by
    intro r hr a ha
    rw [List.mem_singleton] at hr
    subst hr
    have h0 := Option.some.inj ha
    show a < 1
    omega
  have h := pointsFromFrames_no_mutation_no_alias "m" 0 [("env", "prod")]
    [⟨some 0, (some (GoFloat.num 1), false)⟩] ⟨[[("host", "a")]]⟩ hvalid
  exact ⟨(h.1 0 (by decide)).trans rfl, h.2.1⟩
